import Mathlib

/-!
Verification of the ESP8266 PlatformIO platform package (`builder/main.py`,
`builder/penv_setup.py`, `platform.py`) against its natural-language
specification.  The Python functions are shallowly embedded: pure string and
integer manipulation becomes Lean functions on `String`/`List Char`/`Int`,
dictionary-valued state becomes association lists, and calls into external
programs or the filesystem become explicit oracle parameters.  Uncaught
Python exceptions are modelled with `Except String`, the error carrying the
exception class name.
-/

set_option autoImplicit false

namespace Esp8266

/-! ### Python string primitives

String text is ASCII in all the inputs this package handles (linker
scripts written by the Arduino core, size suffixes, package names), so the
Unicode-aware Python primitives are modelled at ASCII precision.
-/

/-- Model of Python's `str.strip()`: remove leading and trailing whitespace. -/
def stripChars (cs : List Char) : List Char :=
  ((cs.dropWhile Char.isWhitespace).reverse.dropWhile Char.isWhitespace).reverse

/-- Model of Python's `str.upper()`. -/
def pyUpper (s : String) : String := ⟨s.data.map Char.toUpper⟩

/-- Model of Python's `str.lower()`. -/
def pyLower (s : String) : String := ⟨s.data.map Char.toLower⟩

/-- Model of Python's `str.startswith`. -/
def pyStartsWith (s pre : String) : Bool := pre.data.isPrefixOf s.data

/-- Model of Python's `str.isdigit` (ASCII digits). -/
def pyIsdigit (s : String) : Bool := !s.data.isEmpty && s.data.all Char.isDigit

/-- Decimal digit value of a character, when it is one. -/
def decDigit? (c : Char) : Option Nat :=
  if c.isDigit then some (c.toNat - 48) else none

/-- Hexadecimal digit value of a character, when it is one. -/
def hexDigit? (c : Char) : Option Nat :=
  if c.isDigit then some (c.toNat - 48)
  else if 'a' ≤ c && c ≤ 'f' then some (c.toNat - 87)
  else if 'A' ≤ c && c ≤ 'F' then some (c.toNat - 55)
  else none

/-- Digit run continuing a CPython integer literal: after a first digit,
single underscores may separate further digits; accumulates the value. -/
def groupedDigitsAux (digit? : Char → Option Nat) (base : Nat) :
    List Char → Nat → Option Nat
  | [], acc => some acc
  | '_' :: rest, acc =>
    match rest with
    | [] => none
    | c :: rest2 =>
      match digit? c with
      | some d => groupedDigitsAux digit? base rest2 (acc * base + d)
      | none => none
  | c :: rest, acc =>
    match digit? c with
    | some d => groupedDigitsAux digit? base rest (acc * base + d)
    | none => none

/-- Full CPython digit run: at least one digit, underscore grouping; a
leading underscore is allowed only directly after a base prefix such as
`0x` (flag `allowLeadSep`). -/
def groupedDigits (digit? : Char → Option Nat) (base : Nat)
    (allowLeadSep : Bool) : List Char → Option Nat
  | [] => none
  | '_' :: rest =>
    if allowLeadSep then
      match rest with
      | [] => none
      | c :: rest2 =>
        match digit? c with
        | some d => groupedDigitsAux digit? base rest2 d
        | none => none
    else none
  | c :: rest =>
    match digit? c with
    | some d => groupedDigitsAux digit? base rest d
    | none => none

/-- Model of CPython's `int(s)` in base 10: surrounding whitespace, an
optional sign, then an underscore-grouped digit run; `none` models the
`ValueError` raised on any other text. -/
def pyIntDec? (s : String) : Option Int :=
  match stripChars s.data with
  | '+' :: rest => (groupedDigits decDigit? 10 false rest).map Int.ofNat
  | '-' :: rest => (groupedDigits decDigit? 10 false rest).map (fun n => -(n : Int))
  | cs => (groupedDigits decDigit? 10 false cs).map Int.ofNat

/-- Body of a base-16 CPython literal: an optional `0x`/`0X` prefix (after
which a single grouping underscore is allowed) and a hex digit run. -/
def pyIntHexBody : List Char → Option Nat
  | '0' :: 'x' :: rest => groupedDigits hexDigit? 16 true rest
  | '0' :: 'X' :: rest => groupedDigits hexDigit? 16 true rest
  | cs => groupedDigits hexDigit? 16 false cs

/-- Model of CPython's `int(s, 16)`. -/
def pyIntHex? (s : String) : Option Int :=
  match stripChars s.data with
  | '+' :: rest => (pyIntHexBody rest).map Int.ofNat
  | '-' :: rest => (pyIntHexBody rest).map (fun n => -(n : Int))
  | cs => (pyIntHexBody cs).map Int.ofNat

/-! ### Python values and exceptions -/

/-- Python value flowing through the size helpers: an `int` or a `str`. -/
inductive PyVal where
  | vInt (n : Int)
  | vStr (s : String)
deriving DecidableEq, Repr

/-- Result of running a piece of Python: a value, or an uncaught exception
identified by its class name. -/
abbrev PyResult (α : Type) := Except String α

instance instDecEqExcept {ε α : Type} [DecidableEq ε] [DecidableEq α] :
    DecidableEq (Except ε α) := fun x y =>
  match x, y with
  | .ok a, .ok b =>
    if h : a = b then isTrue (by rw [h]) else isFalse (by simp [h])
  | .error e, .error f =>
    if h : e = f then isTrue (by rw [h]) else isFalse (by simp [h])
  | .ok _, .error _ => isFalse (by simp)
  | .error _, .ok _ => isFalse (by simp)

/-! ### `_parse_size` (builder/main.py lines 76-86) -/

/-- Embedding of `_parse_size`: an `int` is returned unchanged; a digit
string is parsed in base 10; a string starting with `0x` is parsed in base
16; a string whose last character is `K`/`k` or `M`/`m` has its prefix
parsed in base 10 and scaled; any other string is returned unchanged.
`value[-1]` on the empty string raises `IndexError`, and a failing `int()`
conversion raises `ValueError`. -/
def _parse_size (value : PyVal) : PyResult PyVal :=
  match value with
  | .vInt n => .ok (.vInt n)
  | .vStr s =>
    if pyIsdigit s then
      match pyIntDec? s with
      | some n => .ok (.vInt n)
      | none => .error "ValueError"
    else if pyStartsWith s "0x" then
      match pyIntHex? s with
      | some n => .ok (.vInt n)
      | none => .error "ValueError"
    else
      match s.data.getLast? with
      | none => .error "IndexError"
      | some c =>
        if c.toUpper == 'K' || c.toUpper == 'M' then
          let base : Int := if c.toUpper == 'K' then 1024 else 1024 * 1024
          match pyIntDec? ⟨s.data.dropLast⟩ with
          | some n => .ok (.vInt (n * base))
          | none => .error "ValueError"
        else .ok (.vStr s)

/-- Truth of a `PyVal` being an `int`. -/
def PyVal.isInt : PyVal → Bool
  | .vInt _ => true
  | .vStr _ => false

/-! ### Dictionaries and the SCons environment

Python `dict` objects (the parsed linker-script sizes, the SCons
construction environment as far as `fetch_fs_size` touches it) are
modelled as association lists with in-place update.
-/

/-- Dictionary with Python `dict` update semantics: assignment overwrites an
existing key in place and otherwise appends a new entry. -/
def assocSet {α : Type} : List (String × α) → String → α → List (String × α)
  | [], k, v => [(k, v)]
  | (k', v') :: rest, k, v =>
    if k' = k then (k, v) :: rest else (k', v') :: assocSet rest k v

/-- Dictionary read, `d[k]` / `k in d`. -/
def assocGet {α : Type} : List (String × α) → String → Option α
  | [], _ => none
  | (k', v') :: rest, k => if k = k' then some v' else assocGet rest k

/-- Dictionary of Python values keyed by strings. -/
abbrev PyDict := List (String × PyVal)

/-! ### `fetch_fs_size` (builder/main.py lines 131-157) -/

/-- Esptool flash-address correction applied by `fetch_fs_size` to
`FS_START` and `FS_END`.  Python's `a & 0xFFFFF` on an arbitrary-precision
two's-complement int equals `a % 2^20` (the mask is `2^20 - 1`), and
`a & 0xFFFFFF` equals `a % 2^24`; Lean's `Int` `%` is Euclidean and agrees
with Python's `%` for a positive modulus. -/
def correct_fs_addr (a : Int) : Int :=
  if a < 0x40300000 then a % 2 ^ 20
  else if a < 0x411FB000 then a % 2 ^ 24 - 0x200000
  else a % 2 ^ 24 + 0xE00000

/-- First phase of `fetch_fs_size`: copy every `fs_*` entry of the parsed
linker-script sizes into the environment under its upper-cased key. -/
def fs_copy (ldsizes : PyDict) (env : PyDict) : PyDict :=
  ldsizes.foldl
    (fun e kv =>
      if pyStartsWith kv.1 "fs_" then assocSet e (pyUpper kv.1) kv.2 else e)
    env

/-- Keys whose presence the `assert` in `fetch_fs_size` requires. -/
def fsKeys : List String := ["FS_START", "FS_END", "FS_PAGE", "FS_BLOCK"]

/-- Rewrite one address key of the environment with `correct_fs_addr`;
comparing or masking a non-int value raises `TypeError`, and a missing key
raises `KeyError`. -/
def rewrite_fs_key (env : PyDict) (k : String) : PyResult PyDict :=
  match assocGet env k with
  | some (.vInt a) => .ok (assocSet env k (.vInt (correct_fs_addr a)))
  | some (.vStr _) => .error "TypeError"
  | none => .error "KeyError"

/-- Embedding of `fetch_fs_size`: copy the `fs_*` linker-script entries into
the environment under upper-cased keys, assert that `FS_START`, `FS_END`,
`FS_PAGE` and `FS_BLOCK` are all present, rewrite `FS_START` and `FS_END`
with the esptool flash-address correction, and store
`FS_SIZE = FS_END - FS_START`. -/
def fetch_fs_size (ldsizes : PyDict) (env : PyDict) : PyResult PyDict :=
  let env1 := fs_copy ldsizes env
  if fsKeys.all (fun k => (assocGet env1 k).isSome) then do
    let env2 ← rewrite_fs_key env1 "FS_START"
    let env3 ← rewrite_fs_key env2 "FS_END"
    match assocGet env3 "FS_END", assocGet env3 "FS_START" with
    | some (.vInt e), some (.vInt s) =>
      .ok (assocSet env3 "FS_SIZE" (.vInt (e - s)))
    | _, _ => .error "TypeError"
  else .error "AssertionError"

/-! ### `get_esptoolpy_reset_flags` (builder/main.py lines 424-434) -/

/-- Embedding of `get_esptoolpy_reset_flags`: chooses the esptool
`--before`/`--after` pair from the configured reset method. -/
def get_esptoolpy_reset_flags (resetmethod : String) : List String :=
  let resets :=
    if resetmethod = "nodemcu" then ("default-reset", "hard-reset")
    else if resetmethod = "ck" then ("no-reset", "soft-reset")
    else ("no-reset-no-sync", "soft-reset")
  ["--before", resets.1, "--after", resets.2]

/-! ### Filesystem routing (builder/main.py lines 399-410 and 527-548) -/

/-- Filesystem image builders `build_fs_router` can dispatch to. -/
inductive FsBuilder where
  | littlefs
  | fatfs
  | spiffs
deriving DecidableEq, Repr

/-- Dispatch of `build_fs_router` on the resolved `build.filesystem` board
option: the image builder chosen, if any. -/
def build_fs_router_choice (fsType : String) : Option FsBuilder :=
  if fsType = "littlefs" then some .littlefs
  else if fsType = "fatfs" then some .fatfs
  else if fsType = "spiffs" then some .spiffs
  else none

/-- Return value of `build_fs_router`, given the exit codes the three image
builders would return: the chosen builder's code, or `1` with an error
message for an unknown filesystem type. -/
def build_fs_router (fsType : String) (builderResult : FsBuilder → Int) : Int :=
  match build_fs_router_choice fsType with
  | some b => builderResult b
  | none => 1

/-- Action taken by the top-level build-target dispatch of
`builder/main.py` (lines 527-548), abstracting the SCons builder calls. -/
inductive TopAction where
  | exitOne
  | nobuildFsImage
  | nobuildFirmware
  | dataToBin
  | elfToBin
deriving DecidableEq, Repr

/-- Embedding of the top-level target dispatch: `COMMAND_LINE_TARGETS` and
the resolved `build.filesystem` value decide what is built; only the
non-`nobuild` branch guards the filesystem type and calls `env.Exit(1)`. -/
def build_target_dispatch (targets : List String) (filesystem : String) :
    TopAction :=
  if targets.contains "nobuild" then
    if targets.contains "uploadfs" || targets.contains "uploadfsota" then
      .nobuildFsImage
    else .nobuildFirmware
  else
    if targets.contains "buildfs" || targets.contains "uploadfs"
        || targets.contains "uploadfsota" then
      if filesystem = "littlefs" || filesystem = "spiffs"
          || filesystem = "fatfs" then
        .dataToBin
      else .exitOne
    else .elfToBin

/-! ### `_run_idf_tools_install` (platform.py lines 384-423) -/

/-- Outcome of `subprocess.run`: a process exit code, or a raised
`subprocess.SubprocessError` / `OSError`. -/
inductive SubprocOutcome where
  | exited (rc : Int)
  | subprocessError
  | osError
deriving DecidableEq, Repr

/-- Python's `a or b` on strings: `b` when `a` is `None` or empty. -/
def pyOrStr (a : Option String) (b : String) : String :=
  match a with
  | some s => if s.isEmpty then b else s
  | none => b

/-- Command line built by `_run_idf_tools_install` for `idf_tools.py`. -/
def idf_tools_cmd (pythonExecutable idfToolsPath toolsJsonPath : String) :
    List String :=
  [pythonExecutable, idfToolsPath, "--quiet", "--non-interactive",
   "--tools-json", toolsJsonPath, "install"]

/-- Embedding of `_run_idf_tools_install`: run `idf_tools.py install` with
the penv Python when configured, falling back to the platform Python, and
report success exactly for exit code zero; raised subprocess and OS errors
are caught and reported as failure. -/
def _run_idf_tools_install (toolsJsonPath idfToolsPath : String)
    (penvPython : Option String) (pythonExe : String)
    (run : List String → SubprocOutcome) : Bool :=
  let pythonExecutable := pyOrStr penvPython pythonExe
  match run (idf_tools_cmd pythonExecutable idfToolsPath toolsJsonPath) with
  | .exited rc => rc == 0
  | .subprocessError => false
  | .osError => false

/-! ### `get_packages_to_install` (builder/penv_setup.py lines 186-216) -/

/-- Pinned Python dependencies of the platform (penv_setup.py lines
46-60). -/
def python_deps : List (String × String) :=
  [("platformio",
    "https://github.com/pioarduino/platformio-core/archive/refs/tags/v6.1.18.zip"),
   ("littlefs-python", ">=0.16.0"),
   ("pyyaml", ">=6.0.2"),
   ("rich-click", ">=1.8.6"),
   ("zopfli", ">=0.2.2"),
   ("intelhex", ">=2.3.0"),
   ("rich", ">=14.0.0"),
   ("urllib3", "<2"),
   ("cryptography", ">=45.0.3"),
   ("certifi", ">=2025.8.3"),
   ("ecdsa", ">=0.19.1"),
   ("bitstring", ">=4.3.1"),
   ("reedsolo", ">=1.5.3,<1.8")]

/-- External version machinery `get_packages_to_install` calls into,
abstracted over a version type `V`: `urlVersion` models
`PLATFORMIO_URL_VERSION_RE.search(spec)` followed by `group(1)`,
`pepverToSemver` models `platformio.package.version.pepver_to_semver`, and
`specMatch spec v` models `semantic_version.SimpleSpec(spec).match(v)`. -/
structure VersionOracle (V : Type) where
  urlVersion : String → Option String
  pepverToSemver : String → V
  specMatch : String → V → Bool

/-- Decision for one dependency of `get_packages_to_install`: yield the
package name when it must be installed.  The installed-package table keys
are lowercase, as the caller guarantees. -/
def should_install {V : Type} [DecidableEq V] (o : VersionOracle V)
    (installed : List (String × V)) (pkg : String × String) : Option String :=
  match assocGet installed (pyLower pkg.1) with
  | none => some pkg.1
  | some inst =>
    if pyLower pkg.1 = "platformio" then
      match o.urlVersion pkg.2 with
      | some g => if inst ≠ o.pepverToSemver g then some pkg.1 else none
      | none => none
    else
      if o.specMatch pkg.2 inst then none else some pkg.1

/-- Embedding of the generator `get_packages_to_install`: the packages
yielded, in dependency order. -/
def get_packages_to_install {V : Type} [DecidableEq V] (o : VersionOracle V)
    (deps : List (String × String)) (installed : List (String × V)) :
    List String :=
  deps.filterMap (should_install o installed)

/-! ### Python environment bootstrap (builder/penv_setup.py lines 436-579) -/

/-- Abstract filesystem: the paths for which `os.path.isfile` holds. -/
structure FileSys where
  isfile : String → Bool

/-- Native path separator used by `pathlib.Path` rendering. -/
def pathSep (isWindows : Bool) : String := if isWindows then "\\" else "/"

/-- Embedding of `get_executable_path` (penv_setup.py lines 103-110):
`<penv>/bin/<name>` on POSIX, `<penv>\Scripts\<name>.exe` on Windows
(assuming a normalized `penv_dir`, as `str(Path ...)` produces). -/
def get_executable_path (isWindows : Bool) (penvDir executableName : String) :
    String :=
  penvDir ++ pathSep isWindows ++ (if isWindows then "Scripts" else "bin")
    ++ pathSep isWindows ++ executableName
    ++ (if isWindows then ".exe" else "")

/-- The `penv` directory under the PlatformIO core directory. -/
def penvDirOf (isWindows : Bool) (platformioDir : String) : String :=
  platformioDir ++ pathSep isWindows ++ "penv"

/-- Externally observable effects of the virtual-environment creation
attempts in `_setup_pipenv_minimal`: whether the `uv venv` subprocess
succeeded, the uv command path it used, whether the fallback
`python -m venv` subprocess raised `CalledProcessError`, and the
filesystem state left behind by the attempts. -/
structure VenvOracle where
  uvSucceeds : Bool
  uvCmd : String
  venvRaises : Bool
  fsAfter : FileSys

/-- Outcomes of the dependency-installation stage: network reachability,
the `GITHUB_ACTIONS` flag, and the result of `install_python_deps`. -/
structure DepsOracle where
  hasInternet : Bool
  githubActions : Bool
  installOk : Bool

/-- Result of a bootstrap step: a value with the filesystem it left
behind, or process termination through `sys.exit`. -/
inductive BootResult (α : Type) where
  | ok (a : α) (fs : FileSys)
  | exited (code : Nat)

/-- Embedding of `_setup_pipenv_minimal` (penv_setup.py lines 519-579):
when the penv interpreter already exists nothing is created and the
filesystem is untouched; otherwise creation is attempted with `uv venv`,
then with `python -m venv` (whose `CalledProcessError` exits 1), and a
still-missing interpreter exits 1.  Returns the uv executable used (when
uv succeeded) with a flag recording whether creation was attempted. -/
def _setup_pipenv_minimal (isWindows : Bool) (fs0 : FileSys) (o : VenvOracle)
    (penvDir : String) : BootResult (Option String × Bool) :=
  if fs0.isfile (get_executable_path isWindows penvDir "python") then
    .ok (none, false) fs0
  else if o.uvSucceeds then
    if (o.fsAfter).isfile (get_executable_path isWindows penvDir "python") then
      .ok (some o.uvCmd, true) o.fsAfter
    else .exited 1
  else if o.venvRaises then .exited 1
  else if (o.fsAfter).isfile (get_executable_path isWindows penvDir "python") then
    .ok (none, true) o.fsAfter
  else .exited 1

/-- Embedding of `_setup_python_environment_core` in its minimal (no
SCons) variant (penv_setup.py lines 454-516): create the venv when needed,
exit 1 when the interpreter is missing afterwards, install the Python
dependencies when the network is reachable or on GitHub Actions (exiting 1
on failure), and return the penv python and esptool paths.  The esptool
installation and certifi setup steps never change the outcome. -/
def _setup_python_environment_core (isWindows : Bool) (fs0 : FileSys)
    (o : VenvOracle) (d : DepsOracle) (platformioDir : String) :
    BootResult (String × String) :=
  let penvDir := penvDirOf isWindows platformioDir
  match _setup_pipenv_minimal isWindows fs0 o penvDir with
  | .exited c => .exited c
  | .ok _ fs1 =>
    let penvPython := get_executable_path isWindows penvDir "python"
    if fs1.isfile penvPython then
      if d.hasInternet || d.githubActions then
        if d.installOk then
          .ok (penvPython, get_executable_path isWindows penvDir "esptool") fs1
        else .exited 1
      else .ok (penvPython, get_executable_path isWindows penvDir "esptool") fs1
    else .exited 1

/-! ### `install_tool` (platform.py lines 425-517) -/

/-- Installation-relevant filesystem state for one tool: existence of
`idf_tools.py` (inside the `tool-esp_install` package), of the tool's
`tools.json` and `.piopm` (both inside the tool directory), and of the
tool directory itself. -/
structure ToolFs where
  idfToolsExists : Bool
  toolsJsonExists : Bool
  piopmExists : Bool
  toolDirExists : Bool
deriving DecidableEq, Repr

/-- External effects and package metadata `install_tool` consults: the
result of the `idf_tools.py` run, of `safe_copy_file`, of
`safe_remove_directory`, the required `package-version` from the platform
manifest, and the tool's `package.json` version (`none` when the file is
unreadable or missing, `some none` when it parses but lacks a version). -/
structure ToolOracle where
  runInstallOk : Bool
  copyOk : Bool
  removeOk : Bool
  requiredVersion : Option String
  installedVersion : Option (Option String)

/-- Observable actions of `install_tool` in execution order. -/
inductive ToolAction where
  | markNonOptional
  | runIdfInstall
  | copyPackageJson
  | removeToolDir
  | pmInstall
  | keepWithVersion
deriving DecidableEq, Repr

/-- Python falsiness of an optional version string (`None` or empty). -/
def pyFalsy : Option String → Bool
  | none => true
  | some s => s == ""

/-- Embedding of `_check_tool_version` (platform.py lines 425-458): an
unreadable `package.json` fails; a missing required version passes; a
missing installed version fails; otherwise the strings are compared. -/
def _check_tool_version (o : ToolOracle) : Bool :=
  match o.installedVersion with
  | none => false
  | some inst =>
    if pyFalsy o.requiredVersion then true
    else if pyFalsy inst then false
    else o.requiredVersion == inst

/-- Filesystem effect of `safe_remove_directory` on the tool directory:
on success the directory and the `tools.json` / `.piopm` files inside it
disappear; on a caught `OSError` nothing changes. -/
def removeToolDirFs (o : ToolOracle) (fs : ToolFs) : ToolFs :=
  if o.removeOk then
    { fs with toolDirExists := false, toolsJsonExists := false,
              piopmExists := false }
  else fs

/-- Embedding of `install_tool` (platform.py lines 460-517) with its two
helpers, fuelled to bound the reinstall recursion the way the Python
recursion limit does; fuel 0 stands for `RecursionError`.  Returns the
Python return value and the list of performed actions. -/
def install_tool : Nat → ToolFs → ToolOracle → Bool × List ToolAction
  | 0, _, _ => (false, [])
  | fuel + 1, fs, o =>
    if fs.idfToolsExists && fs.toolsJsonExists then
      if !o.runInstallOk then (false, [.markNonOptional, .runIdfInstall])
      else if !o.copyOk then
        (false, [.markNonOptional, .runIdfInstall, .copyPackageJson])
      else
        (true, [.markNonOptional, .runIdfInstall, .copyPackageJson,
                .removeToolDir, .pmInstall])
    else if fs.idfToolsExists && fs.piopmExists && !fs.toolsJsonExists then
      if _check_tool_version o then
        (true, [.markNonOptional, .keepWithVersion])
      else
        let res := install_tool fuel (removeToolDirFs o fs) o
        (res.1, .markNonOptional :: .removeToolDir :: res.2)
    else (true, [.markNonOptional])

/-! ### Linker-script parsing, `_parse_ld_sizes` (builder/main.py lines
89-121)

The three regular expressions of `_parse_ld_sizes` are compiled to
dedicated matchers.  Greedy subpatterns (`\d+`, `\w+`, `[\da-f]+`) are
matched by maximal munch, which coincides with backtracking semantics here
because each run is followed by a character that can never extend the run;
the greedy `.+` of the `irom0_0_seg` pattern is matched by preferring the
rightmost viable continuation, and `re.search` by trying anchored matches
left to right. -/

/-- Case-insensitive anchored match of a literal, consuming it. -/
def matchLitCI : List Char → List Char → Option (List Char)
  | [], cs => some cs
  | _, [] => none
  | l :: ls, c :: cs => if c.toLower = l.toLower then matchLitCI ls cs else none

/-- Case-sensitive anchored match of a literal, consuming it. -/
def matchLit : List Char → List Char → Option (List Char)
  | [], cs => some cs
  | _, [] => none
  | l :: ls, c :: cs => if c = l then matchLit ls cs else none

/-- Leftmost search: first suffix where the anchored matcher succeeds
(`re.search` semantics). -/
def searchFirst {α : Type} (f : List Char → Option α) : List Char → Option α
  | [] => f []
  | c :: cs =>
    match f (c :: cs) with
    | some r => some r
    | none => searchFirst f cs

/-- Rightmost search over the suffixes of the text, preferring later
positions (the greedy `.+` before `len`). -/
def searchLast {α : Type} (f : List Char → Option α) : List Char → Option α
  | [] => none
  | c :: cs =>
    match searchLast f cs with
    | some r => some r
    | none => f (c :: cs)

/-- Hexadecimal digit under `re.I` (`[\da-f]`). -/
def isHexDigitCI (c : Char) : Bool :=
  c.isDigit || ('a' ≤ c && c ≤ 'f') || ('A' ≤ c && c ≤ 'F')

/-- Word character (`\w`, ASCII). -/
def isWordChar (c : Char) : Bool := c.isAlphanum || c = '_'

/-- Anchored match of the capture `(0x[\da-f]+)` under `re.I` (so `0X` is
also accepted): the matched text and the rest. -/
def matchHexGroup : List Char → Option (List Char × List Char)
  | c0 :: c1 :: cs =>
    if c0 = '0' && c1.toLower = 'x' then
      let run := cs.takeWhile isHexDigitCI
      if run.isEmpty then none
      else some (c0 :: c1 :: run, cs.dropWhile isHexDigitCI)
    else none
  | _ => none

/-- Anchored match of the Arduino filesystem-symbol pattern
`PROVIDE\s*\(\s*_FS_(\w+)\s*=\s*(0x[\da-f]+)\s*\)` under `re.I`,
returning the two capture groups. -/
def matchFsProvide (cs : List Char) : Option (List Char × List Char) := do
  let cs ← matchLitCI "provide".data cs
  let cs := cs.dropWhile Char.isWhitespace
  let cs ← matchLit "(".data cs
  let cs := cs.dropWhile Char.isWhitespace
  let cs ← matchLitCI "_fs_".data cs
  let name := cs.takeWhile isWordChar
  if name.isEmpty then none
  else do
    let cs := cs.dropWhile isWordChar
    let cs := cs.dropWhile Char.isWhitespace
    let cs ← matchLit "=".data cs
    let cs := cs.dropWhile Char.isWhitespace
    let (g2, cs) ← matchHexGroup cs
    let cs := cs.dropWhile Char.isWhitespace
    let _ ← matchLit ")".data cs
    some (name, g2)

/-- Tail of the `irom0_0_seg` pattern: `len\s*=\s*(0x[\da-f]+)` under
`re.I`, returning the capture group. -/
def matchAppsizeTail (cs : List Char) : Option (List Char) := do
  let cs ← matchLitCI "len".data cs
  let cs := cs.dropWhile Char.isWhitespace
  let cs ← matchLit "=".data cs
  let cs := cs.dropWhile Char.isWhitespace
  let (g, _) ← matchHexGroup cs
  some g

/-- Anchored match of `irom0_0_seg\s*:.+len\s*=\s*(0x[\da-f]+)` under
`re.I`: the `.+` consumes at least one character and greedily prefers the
rightmost `len`. -/
def matchAppsize (cs : List Char) : Option (List Char) := do
  let cs ← matchLitCI "irom0_0_seg".data cs
  let cs := cs.dropWhile Char.isWhitespace
  let cs ← matchLit ":".data cs
  match cs with
  | [] => none
  | _ :: rest => searchLast matchAppsizeTail rest

/-- Anchored match of `\.flash\.(\d+[mk]).*\.ld` (case-sensitive),
returning the capture group. -/
def matchFlashSize (cs : List Char) : Option (List Char) := do
  let cs ← matchLit ".flash.".data cs
  let ds := cs.takeWhile Char.isDigit
  if ds.isEmpty then none
  else
    match cs.dropWhile Char.isDigit with
    | [] => none
    | c :: rest =>
      if c = 'm' || c = 'k' then
        if (searchFirst (matchLit ".ld".data) rest).isSome then
          some (ds ++ [c])
        else none
      else none

/-- Comment filter of `_parse_ld_sizes`: `line.startswith("/*")`. -/
def lineIsComment : List Char → Bool
  | '/' :: '*' :: _ => true
  | _ => false

/-- Per-line extraction of `_parse_ld_sizes`: strip the line, skip blanks
and comments, try the `irom0_0_seg` pattern, then the filesystem pattern.
The conditional expression building `filesystem_re` binds tighter than it
reads: the `%` formatting applies only to the `if` branch, so under a
non-Arduino framework the compiled pattern is the group-free literal
`SPIFFS` and `match.group(1)` raises `IndexError` on any line containing
it. -/
def parse_ld_line (arduino : Bool) (acc : PyDict) (rawLine : String) :
    PyResult PyDict :=
  let line := stripChars rawLine.data
  if line.isEmpty || lineIsComment line then .ok acc
  else
    match searchFirst matchAppsize line with
    | some g => do
      let v ← _parse_size (.vStr ⟨g⟩)
      .ok (assocSet acc "app_size" v)
    | none =>
      if arduino then
        match searchFirst matchFsProvide line with
        | some (name, g2) => do
          let v ← _parse_size (.vStr ⟨g2⟩)
          .ok (assocSet acc ("fs_" ++ (⟨name⟩ : String)) v)
        | none => .ok acc
      else
        if (searchFirst (matchLitCI "spiffs".data) line).isSome then
          .error "IndexError"
        else .ok acc

/-- Embedding of `_parse_ld_sizes`: an empty script path fails the
`assert`; `flash_size` starts from the board manifest's
`upload.maximum_size` and is overridden by a `.flash.<digits>[mk]`
component of the script path; then every line is processed by
`parse_ld_line` under the framework flag (`"arduino" in $PIOFRAMEWORK`). -/
def _parse_ld_sizes (arduino : Bool) (boardMaxSize : Int) (path : String)
    (lines : List String) : PyResult PyDict :=
  if path.isEmpty then .error "AssertionError"
  else do
    let init : PyDict := [("flash_size", .vInt boardMaxSize)]
    let init1 ←
      match searchFirst matchFlashSize path.data with
      | some g => do
        let v ← _parse_size (.vStr ⟨g⟩)
        pure (assocSet init "flash_size" v)
      | none => pure init
    lines.foldlM (fun acc l => parse_ld_line arduino acc l) init1

/-! ### Theorems -/

/-- Lookup after a dictionary update: the updated key reads back the new
value and every other key is unchanged. -/
theorem assocGet_assocSet {α : Type} (l : List (String × α)) (k q : String)
    (v : α) :
    assocGet (assocSet l k v) q = if q = k then some v else assocGet l q := by
  induction l with
  | nil =>
    by_cases h : q = k <;> simp [assocSet, assocGet, h]
  | cons hd tl ih =>
    rcases hd with ⟨k', v'⟩
    by_cases h1 : k' = k
    · subst h1
      by_cases h2 : q = k' <;> simp [assocSet, assocGet, h2]
    · by_cases h2 : q = k'
      · subst h2
        simp [assocSet, assocGet, h1, Ne.symm h1]
      · simp [assocSet, assocGet, h1, h2, ih]

/-- Successful lookup implies membership. -/
theorem mem_of_assocGet_eq_some {α : Type} {l : List (String × α)} {k : String}
    {v : α} (h : assocGet l k = some v) : (k, v) ∈ l := by
  induction l with
  | nil => simp [assocGet] at h
  | cons hd tl ih =>
    rcases hd with ⟨k', v'⟩
    by_cases hk : k = k'
    · subst hk
      simp [assocGet] at h
      simp [h]
    · simp [assocGet, hk] at h
      exact List.mem_cons_of_mem _ (ih h)

/-- Dictionary update preserves a property of the stored values. -/
theorem assocSet_forall_values {α : Type} (P : α → Prop)
    (l : List (String × α)) (k : String) (v : α)
    (hl : ∀ p ∈ l, P p.2) (hv : P v) : ∀ p ∈ assocSet l k v, P p.2 := by
  induction l with
  | nil => simpa [assocSet] using hv
  | cons hd tl ih =>
    rcases hd with ⟨k', v'⟩
    by_cases h1 : k' = k
    · intro p hp
      simp [assocSet, h1] at hp
      rcases hp with h | h
      · simp [h, hv]
      · exact hl p (List.mem_cons_of_mem _ h)
    · intro p hp
      simp only [assocSet, if_neg h1, List.mem_cons] at hp
      rcases hp with h | h
      · exact h ▸ hl (k', v') (List.mem_cons_self _ _)
      · exact ih (fun q hq => hl q (List.mem_cons_of_mem _ hq)) p h

/-- Every value stored by the copy phase of `fetch_fs_size` satisfies a
property holding of the linker-script values and the initial environment. -/
theorem fs_copy_forall_values (P : PyVal → Prop) (ld env : PyDict)
    (hld : ∀ p ∈ ld, P p.2) (henv : ∀ p ∈ env, P p.2) :
    ∀ p ∈ fs_copy ld env, P p.2 := by
  induction ld generalizing env with
  | nil => simpa [fs_copy] using henv
  | cons hd tl ih =>
    have hstep : ∀ p ∈ (if pyStartsWith hd.1 "fs_" then
        assocSet env (pyUpper hd.1) hd.2 else env), P p.2 := by
      split
      · exact assocSet_forall_values P env _ _ henv
          (hld hd (List.mem_cons_self _ _))
      · exact henv
    have := ih _ (fun p hp => hld p (List.mem_cons_of_mem _ hp)) hstep
    simpa [fs_copy, List.foldl_cons] using this

/-- Bind on a successful `Except` computation. -/
theorem except_bind_ok {ε α β : Type} (a : α) (f : α → Except ε β) :
    (Except.ok a >>= f) = f a := rfl

/-- Successful run of `fetch_fs_size`: when the copied environment holds
int values for `FS_START` and `FS_END` and the page and block keys are
present, the function passes the assertion, rewrites both addresses and
stores their difference. -/
theorem fetch_fs_size_ok_explicit (ld env : PyDict) (s e : Int)
    (hs : assocGet (fs_copy ld env) "FS_START" = some (.vInt s))
    (he : assocGet (fs_copy ld env) "FS_END" = some (.vInt e))
    (hp : (assocGet (fs_copy ld env) "FS_PAGE").isSome = true)
    (hb : (assocGet (fs_copy ld env) "FS_BLOCK").isSome = true) :
    fetch_fs_size ld env = .ok (assocSet
      (assocSet
        (assocSet (fs_copy ld env) "FS_START" (.vInt (correct_fs_addr s)))
        "FS_END" (.vInt (correct_fs_addr e)))
      "FS_SIZE" (.vInt (correct_fs_addr e - correct_fs_addr s))) := by
  have hguard :
      fsKeys.all (fun k => (assocGet (fs_copy ld env) k).isSome) = true := by
    simp [fsKeys, hs, he, hp, hb]
  have h2 : rewrite_fs_key (fs_copy ld env) "FS_START" =
      .ok (assocSet (fs_copy ld env) "FS_START" (.vInt (correct_fs_addr s))) := by
    simp [rewrite_fs_key, hs]
  have hgetE2 : assocGet
      (assocSet (fs_copy ld env) "FS_START" (.vInt (correct_fs_addr s)))
      "FS_END" = some (.vInt e) := by
    simp [assocGet_assocSet, he]
  have h3 : rewrite_fs_key
      (assocSet (fs_copy ld env) "FS_START" (.vInt (correct_fs_addr s)))
      "FS_END" =
      .ok (assocSet
        (assocSet (fs_copy ld env) "FS_START" (.vInt (correct_fs_addr s)))
        "FS_END" (.vInt (correct_fs_addr e))) := by
    simp [rewrite_fs_key, hgetE2]
  have hE3 : assocGet
      (assocSet
        (assocSet (fs_copy ld env) "FS_START" (.vInt (correct_fs_addr s)))
        "FS_END" (.vInt (correct_fs_addr e))) "FS_END" =
      some (.vInt (correct_fs_addr e)) := by
    simp [assocGet_assocSet]
  have hS3 : assocGet
      (assocSet
        (assocSet (fs_copy ld env) "FS_START" (.vInt (correct_fs_addr s)))
        "FS_END" (.vInt (correct_fs_addr e))) "FS_START" =
      some (.vInt (correct_fs_addr s)) := by
    simp [assocGet_assocSet]
  unfold fetch_fs_size
  rw [if_pos hguard, h2, except_bind_ok, h3, except_bind_ok, hE3, hS3]

/-- C1: when the parsed linker script defines `FS_START`, `FS_END`,
`FS_PAGE` and `FS_BLOCK`, `fetch_fs_size` succeeds and rewrites `FS_START`
and `FS_END` by exact integer arithmetic: an address `a < 0x40300000`
becomes `a % 2^20` (Python's `a & 0xFFFFF`), an address with
`0x40300000 ≤ a < 0x411FB000` becomes `a % 2^24 - 0x200000` (Python's
`(a & 0xFFFFFF) - 0x200000`), and an address `a ≥ 0x411FB000` becomes
`a % 2^24 + 0xE00000`; afterwards `FS_SIZE` equals the rewritten `FS_END`
minus the rewritten `FS_START`. -/
theorem fetch_fs_size_rewrites (ld env : PyDict) (s e : Int)
    (hs : assocGet (fs_copy ld env) "FS_START" = some (.vInt s))
    (he : assocGet (fs_copy ld env) "FS_END" = some (.vInt e))
    (hp : (assocGet (fs_copy ld env) "FS_PAGE").isSome = true)
    (hb : (assocGet (fs_copy ld env) "FS_BLOCK").isSome = true) :
    ∃ env', fetch_fs_size ld env = .ok env' ∧
      assocGet env' "FS_START" = some (.vInt
        (if s < 0x40300000 then s % 2 ^ 20
         else if s < 0x411FB000 then s % 2 ^ 24 - 0x200000
         else s % 2 ^ 24 + 0xE00000)) ∧
      assocGet env' "FS_END" = some (.vInt
        (if e < 0x40300000 then e % 2 ^ 20
         else if e < 0x411FB000 then e % 2 ^ 24 - 0x200000
         else e % 2 ^ 24 + 0xE00000)) ∧
      assocGet env' "FS_SIZE" = some (.vInt
        ((if e < 0x40300000 then e % 2 ^ 20
          else if e < 0x411FB000 then e % 2 ^ 24 - 0x200000
          else e % 2 ^ 24 + 0xE00000) -
         (if s < 0x40300000 then s % 2 ^ 20
          else if s < 0x411FB000 then s % 2 ^ 24 - 0x200000
          else s % 2 ^ 24 + 0xE00000))) := by
  refine ⟨assocSet
      (assocSet
        (assocSet (fs_copy ld env) "FS_START" (.vInt (correct_fs_addr s)))
        "FS_END" (.vInt (correct_fs_addr e)))
      "FS_SIZE" (.vInt (correct_fs_addr e - correct_fs_addr s)),
    fetch_fs_size_ok_explicit ld env s e hs he hp hb, ?_, ?_, ?_⟩
  · simp [assocGet_assocSet, correct_fs_addr]
  · simp [assocGet_assocSet, correct_fs_addr]
  · simp [assocGet_assocSet, correct_fs_addr]

/-- C1 witness: `fetch_fs_size` on a concrete parsed linker script with all
four filesystem symbols. -/
theorem fetch_fs_size_rewrites_witness :
    ∃ env', fetch_fs_size
        [("flash_size", .vInt 4194304),
         ("fs_start", .vInt 0x40500000), ("fs_end", .vInt 0x405FB000),
         ("fs_page", .vInt 0x100), ("fs_block", .vInt 0x2000)] [] =
      .ok env' ∧
      assocGet env' "FS_START" = some (.vInt 0x300000) ∧
      assocGet env' "FS_END" = some (.vInt 0x3FB000) ∧
      assocGet env' "FS_SIZE" = some (.vInt 0xFB000) := by
  obtain ⟨env', hok, hS, hE, hSize⟩ :=
    fetch_fs_size_rewrites
      [("flash_size", .vInt 4194304),
       ("fs_start", .vInt 0x40500000), ("fs_end", .vInt 0x405FB000),
       ("fs_page", .vInt 0x100), ("fs_block", .vInt 0x2000)] []
      0x40500000 0x405FB000 (by decide) (by decide) (by decide) (by decide)
  refine ⟨env', hok, ?_, ?_, ?_⟩
  · rw [hS]; decide
  · rw [hE]; decide
  · rw [hSize]; decide

/-- C9 counterexample: the Arduino filesystem regex is compiled with
`re.I`, so `PROVIDE ( _FS_start = 0X40500000 )` matches and its value text
`0X40500000` is left a string by `_parse_size` (its `"0x"` check is
case-sensitive); the resulting parsed script provides all four filesystem
symbols and the assertion passes, yet `fetch_fs_size` raises `TypeError`
at the comparison `env[k] < 0x40300000` instead of completing, refuting
the completion clause of the claim as stated. -/
theorem fetch_fs_size_capital_hex_typeerror :
    _parse_ld_sizes true 0 "eagle.rom.addr.v6.ld"
      ["PROVIDE ( _FS_start = 0X40500000 )",
       "PROVIDE ( _FS_end = 0x405FB000 )",
       "PROVIDE ( _FS_page = 0x100 )",
       "PROVIDE ( _FS_block = 0x2000 )"] =
      .ok [("flash_size", .vInt 0), ("fs_start", .vStr "0X40500000"),
           ("fs_end", .vInt 0x405FB000), ("fs_page", .vInt 0x100),
           ("fs_block", .vInt 0x2000)] ∧
    fsKeys.all (fun k => (assocGet (fs_copy
        [("flash_size", .vInt 0), ("fs_start", .vStr "0X40500000"),
         ("fs_end", .vInt 0x405FB000), ("fs_page", .vInt 0x100),
         ("fs_block", .vInt 0x2000)] []) k).isSome) = true ∧
    fetch_fs_size
      [("flash_size", .vInt 0), ("fs_start", .vStr "0X40500000"),
       ("fs_end", .vInt 0x405FB000), ("fs_page", .vInt 0x100),
       ("fs_block", .vInt 0x2000)] [] = .error "TypeError" := by
  refine ⟨by decide, by decide, by decide⟩

/-- C9 (amended): with an initially empty environment, `fetch_fs_size`
raises `AssertionError` exactly when the parsed linker script does not
yield all four of `FS_START`, `FS_END`, `FS_PAGE` and `FS_BLOCK`; when the
script provides all four filesystem symbols with integer values — which
the parse produces for lowercase `0x` literals, while a `0X`-capitalized
literal is left a string and later raises `TypeError` — the assertion
passes and the function completes normally. -/
theorem fetch_fs_size_assert_iff (ld : PyDict)
    (hld : ∀ p ∈ ld, p.2.isInt = true) :
    (fetch_fs_size ld [] = .error "AssertionError" ↔
      ¬ ∀ k ∈ fsKeys, (assocGet (fs_copy ld []) k).isSome = true) ∧
    ((∀ k ∈ fsKeys, (assocGet (fs_copy ld []) k).isSome = true) →
      ∃ env', fetch_fs_size ld [] = .ok env') := by
  have hvals : ∀ p ∈ fs_copy ld [], p.2.isInt = true :=
    fs_copy_forall_values (fun v => v.isInt = true) ld [] hld (by simp)
  by_cases hg : ∀ k ∈ fsKeys, (assocGet (fs_copy ld []) k).isSome = true
  · have hguard :
        fsKeys.all (fun k => (assocGet (fs_copy ld []) k).isSome) = true := by
      simpa [List.all_eq_true] using hg
    obtain ⟨vs, hvs⟩ := Option.isSome_iff_exists.mp
      (hg "FS_START" (by simp [fsKeys]))
    obtain ⟨ve, hve⟩ := Option.isSome_iff_exists.mp
      (hg "FS_END" (by simp [fsKeys]))
    obtain ⟨s, rfl⟩ : ∃ n : Int, vs = .vInt n := by
      have := hvals _ (mem_of_assocGet_eq_some hvs)
      cases vs with
      | vInt n => exact ⟨n, rfl⟩
      | vStr t => simp [PyVal.isInt] at this
    obtain ⟨e, rfl⟩ : ∃ n : Int, ve = .vInt n := by
      have := hvals _ (mem_of_assocGet_eq_some hve)
      cases ve with
      | vInt n => exact ⟨n, rfl⟩
      | vStr t => simp [PyVal.isInt] at this
    have hok :=
      fetch_fs_size_ok_explicit ld [] s e hvs hve
        (hg "FS_PAGE" (by simp [fsKeys])) (hg "FS_BLOCK" (by simp [fsKeys]))
    refine ⟨?_, fun _ => ⟨_, hok⟩⟩
    rw [hok]
    exact ⟨fun h => Except.noConfusion h, fun h => (h hg).elim⟩
  · have hguard :
        fsKeys.all (fun k => (assocGet (fs_copy ld []) k).isSome) = false := by
      by_cases hall :
          fsKeys.all (fun k => (assocGet (fs_copy ld []) k).isSome) = true
      · exact absurd (by simpa [List.all_eq_true] using hall) hg
      · simpa using hall
    have herr : fetch_fs_size ld [] = .error "AssertionError" := by
      unfold fetch_fs_size
      rw [if_neg (by simp [hguard])]
    exact ⟨by simp [herr, hg], fun h => absurd h hg⟩

/-- C9 witness: a script yielding all four symbols completes, discharging
the int-valuedness hypothesis at a concrete parsed dictionary. -/
theorem fetch_fs_size_assert_iff_witness :
    ∃ env', fetch_fs_size
        [("fs_start", .vInt 0x40500000), ("fs_end", .vInt 0x405FB000),
         ("fs_page", .vInt 0x100), ("fs_block", .vInt 0x2000)] [] =
      .ok env' :=
  (fetch_fs_size_assert_iff
    [("fs_start", .vInt 0x40500000), ("fs_end", .vInt 0x405FB000),
     ("fs_page", .vInt 0x100), ("fs_block", .vInt 0x2000)]
    (by decide)).2 (by decide)

/-- In a list with duplicate-free keys, a key determines its value. -/
theorem nodup_keys_eq {α β : Type} {l : List (α × β)}
    (hnd : (l.map Prod.fst).Nodup) {a : α} {b1 b2 : β}
    (h1 : (a, b1) ∈ l) (h2 : (a, b2) ∈ l) : b1 = b2 := by
  induction l with
  | nil => cases h1
  | cons hd tl ih =>
    rw [List.map_cons] at hnd
    rcases List.nodup_cons.mp hnd with ⟨hhd, htl⟩
    rcases List.mem_cons.mp h1 with h1 | h1 <;>
      rcases List.mem_cons.mp h2 with h2 | h2
    · rw [← h1] at h2
      injection h2 with h2a h2b
      exact h2b.symm
    · exfalso
      rw [← h1] at hhd
      exact hhd (by simpa using List.mem_map_of_mem Prod.fst h2)
    · exfalso
      rw [← h2] at hhd
      exact hhd (by simpa using List.mem_map_of_mem Prod.fst h1)
    · exact ih htl h1 h2

/-- Per-package decision of `get_packages_to_install`, characterized. -/
theorem should_install_eq_some {V : Type} [DecidableEq V]
    (o : VersionOracle V) (installed : List (String × V))
    (q spec p : String) :
    should_install o installed (q, spec) = some p ↔
      p = q ∧
      (assocGet installed (pyLower q) = none ∨
       (pyLower q = "platformio" ∧ ∃ g v, o.urlVersion spec = some g ∧
          assocGet installed (pyLower q) = some v ∧
          v ≠ o.pepverToSemver g) ∨
       (pyLower q ≠ "platformio" ∧ ∃ v,
          assocGet installed (pyLower q) = some v ∧
          o.specMatch spec v = false)) := by
  unfold should_install
  cases hio : assocGet installed (pyLower q) with
  | none =>
    simp only [hio]
    constructor
    · intro h
      obtain rfl := Option.some.inj h
      exact ⟨rfl, Or.inl trivial⟩
    · rintro ⟨rfl, -⟩
      rfl
  | some v =>
    simp only [hio]
    by_cases hname : pyLower q = "platformio"
    · rw [if_pos hname]
      cases hurl : o.urlVersion spec with
      | none =>
        constructor
        · intro h
          exact Option.noConfusion h
        · rintro ⟨rfl, hcond⟩
          rcases hcond with h | ⟨-, g, v2, hg, -, -⟩ | ⟨hne, -⟩
          · cases h
          · cases hg
          · exact absurd hname hne
      | some g =>
        dsimp only
        by_cases hv : v = o.pepverToSemver g
        · rw [if_neg (not_not_intro hv)]
          constructor
          · intro h
            exact Option.noConfusion h
          · rintro ⟨rfl, hcond⟩
            rcases hcond with h | ⟨-, g2, v2, hg, hv2, hne⟩ | ⟨hne, -⟩
            · cases h
            · obtain rfl := Option.some.inj hg
              obtain rfl := Option.some.inj hv2
              exact absurd hv hne
            · exact absurd hname hne
        · rw [if_pos hv]
          constructor
          · intro h
            obtain rfl := Option.some.inj h
            exact ⟨rfl, Or.inr (Or.inl ⟨hname, g, v, rfl, rfl, hv⟩)⟩
          · rintro ⟨rfl, -⟩
            rfl
    · rw [if_neg hname]
      by_cases hm : o.specMatch spec v = true
      · rw [if_pos hm]
        constructor
        · intro h
          exact Option.noConfusion h
        · rintro ⟨rfl, hcond⟩
          rcases hcond with h | ⟨hpio, -⟩ | ⟨-, v2, hv2, hmf⟩
          · cases h
          · exact absurd hpio hname
          · obtain rfl := Option.some.inj hv2
            rw [hm] at hmf; cases hmf
      · rw [if_neg hm]
        constructor
        · intro h
          obtain rfl := Option.some.inj h
          refine ⟨rfl, Or.inr (Or.inr ⟨hname, v, rfl, ?_⟩)⟩
          revert hm
          cases o.specMatch spec v <;> simp
        · rintro ⟨rfl, -⟩
          rfl

/-- C4: `get_packages_to_install` yields a package exactly when its
lowercase name is absent from the installed table; or it is `platformio`,
its URL specification carries a parseable version, and the installed
version differs from that pinned version; or (for any other present
package) the installed version does not satisfy the semantic-version
specification.  With duplicate-free dependency names, a package whose
installed version satisfies its specification is never yielded. -/
theorem get_packages_to_install_spec {V : Type} [DecidableEq V]
    (o : VersionOracle V) (deps : List (String × String))
    (installed : List (String × V)) (p : String) :
    (p ∈ get_packages_to_install o deps installed ↔
      ∃ spec, (p, spec) ∈ deps ∧
        (assocGet installed (pyLower p) = none ∨
         (pyLower p = "platformio" ∧ ∃ g v, o.urlVersion spec = some g ∧
            assocGet installed (pyLower p) = some v ∧
            v ≠ o.pepverToSemver g) ∨
         (pyLower p ≠ "platformio" ∧ ∃ v,
            assocGet installed (pyLower p) = some v ∧
            o.specMatch spec v = false))) ∧
    ((deps.map Prod.fst).Nodup →
      ∀ (spec : String) (v : V), (p, spec) ∈ deps →
      assocGet installed (pyLower p) = some v →
      (if pyLower p = "platformio"
        then ∀ g, o.urlVersion spec = some g → v = o.pepverToSemver g
        else o.specMatch spec v = true) →
      p ∉ get_packages_to_install o deps installed) := by
  have hiff : p ∈ get_packages_to_install o deps installed ↔
      ∃ spec, (p, spec) ∈ deps ∧
        (assocGet installed (pyLower p) = none ∨
         (pyLower p = "platformio" ∧ ∃ g v, o.urlVersion spec = some g ∧
            assocGet installed (pyLower p) = some v ∧
            v ≠ o.pepverToSemver g) ∨
         (pyLower p ≠ "platformio" ∧ ∃ v,
            assocGet installed (pyLower p) = some v ∧
            o.specMatch spec v = false)) := by
    unfold get_packages_to_install
    rw [List.mem_filterMap]
    constructor
    · rintro ⟨⟨q, spec⟩, hmem, hf⟩
      obtain ⟨rfl, hcond⟩ := (should_install_eq_some o installed q spec p).mp hf
      exact ⟨spec, hmem, hcond⟩
    · rintro ⟨spec, hmem, hcond⟩
      exact ⟨(p, spec), hmem,
        (should_install_eq_some o installed p spec p).mpr ⟨rfl, hcond⟩⟩
  refine ⟨hiff, ?_⟩
  intro hnd spec v hmem hv hsat hyld
  obtain ⟨spec2, hmem2, hcond⟩ := hiff.mp hyld
  obtain rfl : spec2 = spec := nodup_keys_eq hnd hmem2 hmem
  rcases hcond with h | ⟨hpio, g, v2, hurl, hv2, hne⟩ | ⟨hnpio, v2, hv2, hm⟩
  · rw [hv] at h; cases h
  · rw [if_pos hpio] at hsat
    rw [hv] at hv2
    obtain rfl := Option.some.inj hv2
    exact hne (hsat g hurl)
  · rw [if_neg hnpio] at hsat
    rw [hv] at hv2
    obtain rfl := Option.some.inj hv2
    rw [hsat] at hm
    cases hm

/-- C4 witness: a concrete oracle over string versions; a missing package
is yielded and a satisfied one is not. -/
theorem get_packages_to_install_spec_witness :
    ("foo" ∈ get_packages_to_install
      (⟨fun _ => none, id, fun spec v => v == spec⟩ : VersionOracle String)
      [("foo", "1.0")] []) ∧
    ("bar" ∉ get_packages_to_install
      (⟨fun _ => none, id, fun spec v => v == spec⟩ : VersionOracle String)
      [("bar", "2.0")] [("bar", "2.0")]) := by
  constructor
  · exact (get_packages_to_install_spec
      (⟨fun _ => none, id, fun spec v => v == spec⟩ : VersionOracle String)
      [("foo", "1.0")] [] "foo").1.mpr
      ⟨"1.0", by decide, Or.inl rfl⟩
  · exact (get_packages_to_install_spec
      (⟨fun _ => none, id, fun spec v => v == spec⟩ : VersionOracle String)
      [("bar", "2.0")] [("bar", "2.0")] "bar").2
      (by decide) "2.0" "2.0" (by decide) rfl (by decide)

/-- C5: the bootstrap creates the virtual environment under
`<core_dir>/penv` only when the interpreter `<penv>/bin/python`
(`Scripts\python.exe` on Windows) does not yet exist — an existing
interpreter leaves the filesystem untouched; it terminates the process
with exit status 1 when that interpreter is still missing after creation;
and on success it returns the pair (penv python path, penv esptool
path). -/
theorem setup_python_environment_spec :
    ∀ (isWindows : Bool) (fs0 : FileSys) (o : VenvOracle) (d : DepsOracle)
      (dir : String),
      (fs0.isfile (get_executable_path isWindows (penvDirOf isWindows dir)
          "python") = true →
        _setup_pipenv_minimal isWindows fs0 o (penvDirOf isWindows dir) =
          .ok (none, false) fs0) ∧
      (∀ (uv : Option String) (c : Bool) (fs1 : FileSys),
        _setup_pipenv_minimal isWindows fs0 o (penvDirOf isWindows dir) =
          .ok (uv, c) fs1 → c = true →
        fs0.isfile (get_executable_path isWindows (penvDirOf isWindows dir)
          "python") = false) ∧
      (fs0.isfile (get_executable_path isWindows (penvDirOf isWindows dir)
          "python") = false →
        o.fsAfter.isfile (get_executable_path isWindows
          (penvDirOf isWindows dir) "python") = false →
        _setup_python_environment_core isWindows fs0 o d dir = .exited 1) ∧
      (∀ (r : String × String) (fs2 : FileSys),
        _setup_python_environment_core isWindows fs0 o d dir = .ok r fs2 →
        r = (get_executable_path isWindows (penvDirOf isWindows dir) "python",
             get_executable_path isWindows (penvDirOf isWindows dir)
               "esptool")) := by
  intro isWindows fs0 o d dir
  refine ⟨?_, ?_, ?_, ?_⟩
  · intro h
    unfold _setup_pipenv_minimal
    rw [if_pos h]
  · intro uv c fs1 hok hc
    subst hc
    by_cases h : fs0.isfile (get_executable_path isWindows
        (penvDirOf isWindows dir) "python") = true
    · exfalso
      unfold _setup_pipenv_minimal at hok
      rw [if_pos h] at hok
      injection hok with hpair hfs
      injection hpair with huv hcfl
      cases hcfl
    · simpa using h
  · intro h1 h2
    have hmin : _setup_pipenv_minimal isWindows fs0 o
        (penvDirOf isWindows dir) = .exited 1 := by
      unfold _setup_pipenv_minimal
      rw [if_neg (by simp [h1])]
      cases hu : o.uvSucceeds <;> cases hv : o.venvRaises <;> simp [h2]
    unfold _setup_python_environment_core
    dsimp only
    rw [hmin]
  · intro r fs2 hok
    unfold _setup_python_environment_core at hok
    dsimp only at hok
    cases hmin : _setup_pipenv_minimal isWindows fs0 o
        (penvDirOf isWindows dir) with
    | exited c =>
      rw [hmin] at hok
      exact BootResult.noConfusion hok
    | ok a fs1 =>
      rw [hmin] at hok
      dsimp only at hok
      by_cases hf : fs1.isfile (get_executable_path isWindows
          (penvDirOf isWindows dir) "python") = true
      · rw [if_pos hf] at hok
        by_cases hnet : (d.hasInternet || d.githubActions) = true
        · rw [if_pos hnet] at hok
          by_cases hinst : d.installOk = true
          · rw [if_pos hinst] at hok
            injection hok with hr hfs
            exact hr.symm
          · rw [if_neg hinst] at hok
            exact BootResult.noConfusion hok
        · rw [if_neg hnet] at hok
          injection hok with hr hfs
          exact hr.symm
      · rw [if_neg hf] at hok
        exact BootResult.noConfusion hok

/-- C5 witness: a filesystem whose penv interpreter exists is untouched,
and one where creation leaves the interpreter missing exits 1. -/
theorem setup_python_environment_spec_witness :
    (_setup_pipenv_minimal false
        ⟨fun p => p == "/core/penv/bin/python"⟩
        ⟨true, "uv", false, ⟨fun _ => false⟩⟩ (penvDirOf false "/core") =
      .ok (none, false) ⟨fun p => p == "/core/penv/bin/python"⟩) ∧
    (_setup_python_environment_core false ⟨fun _ => false⟩
        ⟨true, "uv", false, ⟨fun _ => false⟩⟩ ⟨true, false, true⟩ "/core" =
      .exited 1) := by
  constructor
  · exact (setup_python_environment_spec false
      ⟨fun p => p == "/core/penv/bin/python"⟩
      ⟨true, "uv", false, ⟨fun _ => false⟩⟩ ⟨true, false, true⟩ "/core").1
      (by decide)
  · exact (setup_python_environment_spec false ⟨fun _ => false⟩
      ⟨true, "uv", false, ⟨fun _ => false⟩⟩ ⟨true, false, true⟩ "/core").2.2.1
      (by decide) (by decide)

/-- C7: `install_tool` first marks the package non-optional; with both
`idf_tools.py` and the tool's `tools.json` present it freshly installs via
`idf_tools.py`, copies the package metadata into the IDF tools directory,
removes the original tool directory and registers the installed tree with
the host package manager; with `idf_tools.py` and `.piopm` present but no
`tools.json` it keeps the tool when the installed version equals the
required package-version and otherwise removes the tool directory and
restarts installation (whose recursive pass finds nothing left to do and
leaves the package marked for the host manager); in every other case it
returns `True` having only marked the package. -/
theorem install_tool_cases :
    ∀ (fuel : Nat) (fs : ToolFs) (o : ToolOracle),
      ((install_tool (fuel + 1) fs o).2.head? = some .markNonOptional) ∧
      ((fs.idfToolsExists && fs.toolsJsonExists) = true →
        o.runInstallOk = true → o.copyOk = true →
        install_tool (fuel + 1) fs o =
          (true, [.markNonOptional, .runIdfInstall, .copyPackageJson,
                  .removeToolDir, .pmInstall])) ∧
      (∀ req inst : String,
        (fs.idfToolsExists && fs.piopmExists && !fs.toolsJsonExists) = true →
        o.requiredVersion = some req → req ≠ "" →
        o.installedVersion = some (some inst) → inst ≠ "" →
        req = inst →
        install_tool (fuel + 1) fs o =
          (true, [.markNonOptional, .keepWithVersion])) ∧
      (∀ req inst : String,
        (fs.idfToolsExists && fs.piopmExists && !fs.toolsJsonExists) = true →
        o.requiredVersion = some req → req ≠ "" →
        o.installedVersion = some (some inst) → inst ≠ "" →
        req ≠ inst → o.removeOk = true →
        install_tool (fuel + 2) fs o =
          (true, [.markNonOptional, .removeToolDir, .markNonOptional])) ∧
      ((fs.idfToolsExists && fs.toolsJsonExists) = false →
        (fs.idfToolsExists && fs.piopmExists && !fs.toolsJsonExists) = false →
        install_tool (fuel + 1) fs o = (true, [.markNonOptional])) := by
  intro fuel fs o
  refine ⟨?_, ?_, ?_, ?_, ?_⟩
  · simp only [install_tool]
    split_ifs <;> simp
  · intro hcase hrun hcopy
    simp [install_tool, hcase, hrun, hcopy]
  · intro req inst hcase hreq hreqne hinst hinstne heq
    subst heq
    obtain ⟨⟨hidf, hpio⟩, htj⟩ :
        (fs.idfToolsExists = true ∧ fs.piopmExists = true) ∧
          fs.toolsJsonExists = false := by
      simpa [Bool.and_eq_true] using hcase
    have hb1 : (req == "") = false := beq_eq_false_iff_ne.mpr hreqne
    have hchk : _check_tool_version o = true := by
      simp [_check_tool_version, hinst, hreq, pyFalsy, hb1]
    simp [install_tool, hidf, hpio, htj, hchk]
  · intro req inst hcase hreq hreqne hinst hinstne hne hrem
    obtain ⟨⟨hidf, hpio⟩, htj⟩ :
        (fs.idfToolsExists = true ∧ fs.piopmExists = true) ∧
          fs.toolsJsonExists = false := by
      simpa [Bool.and_eq_true] using hcase
    have hb1 : (req == "") = false := beq_eq_false_iff_ne.mpr hreqne
    have hb2 : (inst == "") = false := beq_eq_false_iff_ne.mpr hinstne
    have hchk : _check_tool_version o = false := by
      simp [_check_tool_version, hinst, hreq, pyFalsy, hb1, hb2, hne]
    simp [install_tool, hidf, hpio, htj, hchk, removeToolDirFs, hrem]
  · intro hg1 hg2
    simp [install_tool, hg1, hg2]

/-- C7 witness: the three installation situations at concrete states. -/
theorem install_tool_cases_witness :
    (install_tool 1 ⟨true, true, true, true⟩
        ⟨true, true, true, some "1.0", some (some "1.0")⟩ =
      (true, [.markNonOptional, .runIdfInstall, .copyPackageJson,
              .removeToolDir, .pmInstall])) ∧
    (install_tool 1 ⟨true, false, true, true⟩
        ⟨true, true, true, some "1.0", some (some "1.0")⟩ =
      (true, [.markNonOptional, .keepWithVersion])) ∧
    (install_tool 2 ⟨true, false, true, true⟩
        ⟨true, true, true, some "2.0", some (some "1.0")⟩ =
      (true, [.markNonOptional, .removeToolDir, .markNonOptional])) := by
  refine ⟨?_, ?_, ?_⟩
  · exact (install_tool_cases 0 ⟨true, true, true, true⟩
      ⟨true, true, true, some "1.0", some (some "1.0")⟩).2.1
      (by decide) (by decide) (by decide)
  · exact (install_tool_cases 0 ⟨true, false, true, true⟩
      ⟨true, true, true, some "1.0", some (some "1.0")⟩).2.2.1
      "1.0" "1.0" (by decide) rfl (by decide) rfl (by decide) rfl
  · exact (install_tool_cases 0 ⟨true, false, true, true⟩
      ⟨true, true, true, some "2.0", some (some "1.0")⟩).2.2.2.1
      "2.0" "1.0" (by decide) rfl (by decide) rfl (by decide) (by decide)
      (by decide)

/-- C2: the `filesystem_re` conditional expression binds tighter than it
reads — the `%` formatting applies only to the `if` branch — so for a
non-Arduino framework the compiled pattern is the group-free literal
`SPIFFS`, and `match.group(1)` raises `IndexError` on the very
`PROVIDE ( _SPIFFS_start = ... )` lines the claim expects to be parsed;
under Arduino the `_FS_` symbols, the `irom0_0_seg` length and the flash
size from the script path are extracted as claimed. -/
theorem parse_ld_sizes_spiffs_bug :
    _parse_ld_sizes false 1048576 "eagle.rom.addr.v6.ld"
      ["PROVIDE ( _SPIFFS_start = 0x40500000 )"] = .error "IndexError" ∧
    _parse_ld_sizes true 1048576 "eagle.rom.addr.v6.ld"
      ["PROVIDE ( _FS_start = 0x40500000 )"] =
      .ok [("flash_size", .vInt 1048576), ("fs_start", .vInt 0x40500000)] ∧
    _parse_ld_sizes true 1048576 "/ld/eagle.flash.4m1m.ld"
      ["irom0_0_seg :   org = 0x40201010, len = 0x3fef0"] =
      .ok [("flash_size", .vInt 4194304), ("app_size", .vInt 0x3fef0)] := by
  refine ⟨by decide, by decide, by decide⟩

/-- C8 counterexample: on the empty string, `value[-1]` raises `IndexError`,
so `_parse_size` does not return the string unchanged as the claim's
"every other string" clause states. -/
theorem parse_size_empty_raises :
    _parse_size (.vStr "") ≠ .ok (.vStr "") ∧
      _parse_size (.vStr "") = .error "IndexError" := by decide

/-- C8 (amended): `_parse_size` returns every int unchanged; a digit string
is parsed in base 10; a `0x` string is parsed in base 16; a string ending in
`K`/`k` (`M`/`m`) whose prefix is numeric is scaled by 1024 (1048576); and
every other nonempty string is returned unchanged, so the result is not
always an integer. -/
theorem parse_size_claims :
    (∀ n : Int, _parse_size (.vInt n) = .ok (.vInt n)) ∧
    (∀ (s : String) (n : Int), pyIsdigit s = true → pyIntDec? s = some n →
      _parse_size (.vStr s) = .ok (.vInt n)) ∧
    (∀ (s : String) (n : Int), pyIsdigit s = false →
      pyStartsWith s "0x" = true → pyIntHex? s = some n →
      _parse_size (.vStr s) = .ok (.vInt n)) ∧
    (∀ (s : String) (c : Char) (n : Int), pyIsdigit s = false →
      pyStartsWith s "0x" = false → s.data.getLast? = some c →
      (c.toUpper = 'K' ∨ c.toUpper = 'M') →
      pyIntDec? ⟨s.data.dropLast⟩ = some n →
      _parse_size (.vStr s) =
        .ok (.vInt (n * (if c.toUpper = 'K' then 1024 else 1048576)))) ∧
    (∀ (s : String) (c : Char), pyIsdigit s = false →
      pyStartsWith s "0x" = false → s.data.getLast? = some c →
      c.toUpper ≠ 'K' → c.toUpper ≠ 'M' →
      _parse_size (.vStr s) = .ok (.vStr s)) := by
  refine ⟨fun n => rfl, ?_, ?_, ?_, ?_⟩
  · intro s n h1 h2
    simp [_parse_size, h1, h2]
  · intro s n h1 h2 h3
    simp [_parse_size, h1, h2, h3]
  · intro s c n h1 h2 h3 hKM h4
    rcases hKM with hK | hM
    · simp [_parse_size, h1, h2, h3, hK, h4]
    · have hne : c.toUpper ≠ 'K' := by
        rw [hM]; decide
      simp [_parse_size, h1, h2, h3, hM, hne, h4]
  · intro s c h1 h2 h3 hK hM
    simp [_parse_size, h1, h2, h3, hK, hM]

/-- C8 witness: the five clauses of `parse_size_claims` evaluated at
concrete inputs. -/
theorem parse_size_claims_witness :
    _parse_size (.vInt 7) = .ok (.vInt 7) ∧
    _parse_size (.vStr "128") = .ok (.vInt 128) ∧
    _parse_size (.vStr "0x1f") = .ok (.vInt 31) ∧
    _parse_size (.vStr "4m") = .ok (.vInt 4194304) ∧
    _parse_size (.vStr "abc") = .ok (.vStr "abc") := by
  refine ⟨parse_size_claims.1 7,
    parse_size_claims.2.1 "128" 128 (by decide) (by decide),
    parse_size_claims.2.2.1 "0x1f" 31 (by decide) (by decide) (by decide),
    ?_,
    parse_size_claims.2.2.2.2 "abc" 'c' (by decide) (by decide) (by decide)
      (by decide) (by decide)⟩
  have h := parse_size_claims.2.2.2.1 "4m" 'm' 4 (by decide) (by decide)
    (by decide) (Or.inr (by decide)) (by decide)
  rw [h]; decide

/-- C3 counterexample: with targets `["nobuild", "uploadfs"]` a filesystem
upload target is requested and the configured filesystem `"cramfs"` is not
supported, yet the top-level script does not exit with status 1 — the
guard runs only in the non-`nobuild` branch. -/
theorem build_target_nobuild_no_exit :
    (["nobuild", "uploadfs"].contains "uploadfs" = true) ∧
    ("cramfs" ≠ "littlefs" ∧ "cramfs" ≠ "spiffs" ∧ "cramfs" ≠ "fatfs") ∧
    build_target_dispatch ["nobuild", "uploadfs"] "cramfs" ≠ .exitOne := by
  decide

/-- C3 (amended): `build_fs_router` invokes the LittleFS builder for
`"littlefs"`, the FatFS builder for `"fatfs"`, the SPIFFS builder for
`"spiffs"`, and for every other value builds nothing and returns 1; the
top-level script exits with status 1 when a filesystem build/upload target
is requested, `nobuild` is not among the requested targets, and the
configured filesystem is not one of the three. -/
theorem build_fs_router_cases :
    (∀ r : FsBuilder → Int, build_fs_router "littlefs" r = r .littlefs) ∧
    (∀ r : FsBuilder → Int, build_fs_router "fatfs" r = r .fatfs) ∧
    (∀ r : FsBuilder → Int, build_fs_router "spiffs" r = r .spiffs) ∧
    (∀ (fs : String) (r : FsBuilder → Int), fs ≠ "littlefs" → fs ≠ "fatfs" →
      fs ≠ "spiffs" →
      build_fs_router_choice fs = none ∧ build_fs_router fs r = 1) ∧
    (∀ (targets : List String) (fs : String),
      targets.contains "nobuild" = false →
      (targets.contains "buildfs" = true ∨
        targets.contains "uploadfs" = true ∨
        targets.contains "uploadfsota" = true) →
      fs ≠ "littlefs" → fs ≠ "spiffs" → fs ≠ "fatfs" →
      build_target_dispatch targets fs = .exitOne) := by
  refine ⟨fun r => rfl, fun r => rfl, fun r => rfl, ?_, ?_⟩
  · intro fs r h1 h2 h3
    constructor
    · simp [build_fs_router_choice, h1, h2, h3]
    · simp [build_fs_router, build_fs_router_choice, h1, h2, h3]
  · intro targets fs hnb hreq h1 h2 h3
    unfold build_target_dispatch
    rw [if_neg (by simpa using hnb)]
    have hmem : "buildfs" ∈ targets ∨ "uploadfs" ∈ targets ∨
        "uploadfsota" ∈ targets := by
      rcases hreq with h | h | h
      · exact Or.inl (by simpa using h)
      · exact Or.inr (Or.inl (by simpa using h))
      · exact Or.inr (Or.inr (by simpa using h))
    rw [if_pos (by simp only [Bool.or_eq_true, List.elem_iff]; tauto),
      if_neg (by simp [h1, h2, h3])]

/-- C3 witness: the quantified clauses of `build_fs_router_cases` at
concrete inputs. -/
theorem build_fs_router_cases_witness :
    (build_fs_router "littlefs" (fun _ => 0) = 0) ∧
    (build_fs_router "cramfs" (fun _ => 0) = 1) ∧
    build_target_dispatch ["buildfs"] "cramfs" = .exitOne := by
  refine ⟨build_fs_router_cases.1 (fun _ => 0), ?_, ?_⟩
  · exact (build_fs_router_cases.2.2.2.1 "cramfs" (fun _ => 0) (by decide)
      (by decide) (by decide)).2
  · exact build_fs_router_cases.2.2.2.2 ["buildfs"] "cramfs" (by decide)
      (Or.inl (by decide)) (by decide) (by decide) (by decide)

/-- C6: `_run_idf_tools_install` invokes `idf_tools.py` with exactly the
arguments `--quiet --non-interactive --tools-json <tools.json path>
install` and returns `True` if and only if the subprocess exits with
return code 0; a nonzero code, a subprocess error or an OS error makes it
return `False` without propagating an exception. -/
theorem run_idf_tools_install_spec :
    ∀ (toolsJson idfTools pythonExe : String) (penvPython : Option String)
      (run : List String → SubprocOutcome),
      _run_idf_tools_install toolsJson idfTools penvPython pythonExe run =
          true ↔
        run [pyOrStr penvPython pythonExe, idfTools, "--quiet",
             "--non-interactive", "--tools-json", toolsJson, "install"] =
          .exited 0 := by
  intro toolsJson idfTools pythonExe penvPython run
  unfold _run_idf_tools_install idf_tools_cmd
  cases hr : run [pyOrStr penvPython pythonExe, idfTools, "--quiet",
      "--non-interactive", "--tools-json", toolsJson, "install"] with
  | exited rc => simp [hr]
  | subprocessError => simp [hr]
  | osError => simp [hr]

/-- C6 witness: a subprocess oracle exiting 0 makes the call succeed. -/
theorem run_idf_tools_install_spec_witness :
    _run_idf_tools_install "tools.json" "idf_tools.py" none "python3"
      (fun _ => .exited 0) = true :=
  (run_idf_tools_install_spec "tools.json" "idf_tools.py" "python3" none
    (fun _ => .exited 0)).mpr rfl

/-- C10: `get_esptoolpy_reset_flags` is total and always returns
`["--before", b, "--after", a]`, with `(b, a)` equal to
`("default-reset", "hard-reset")` for `"nodemcu"`,
`("no-reset", "soft-reset")` for `"ck"`, and
`("no-reset-no-sync", "soft-reset")` for every other reset method. -/
theorem get_esptoolpy_reset_flags_cases :
    (∀ m : String, ∃ b a : String,
      get_esptoolpy_reset_flags m = ["--before", b, "--after", a]) ∧
    get_esptoolpy_reset_flags "nodemcu" =
      ["--before", "default-reset", "--after", "hard-reset"] ∧
    get_esptoolpy_reset_flags "ck" =
      ["--before", "no-reset", "--after", "soft-reset"] ∧
    (∀ m : String, m ≠ "nodemcu" → m ≠ "ck" →
      get_esptoolpy_reset_flags m =
        ["--before", "no-reset-no-sync", "--after", "soft-reset"]) := by
  refine ⟨?_, by decide, by decide, ?_⟩
  · intro m
    unfold get_esptoolpy_reset_flags
    split
    · exact ⟨_, _, rfl⟩
    · split
      · exact ⟨_, _, rfl⟩
      · exact ⟨_, _, rfl⟩
  · intro m h1 h2
    unfold get_esptoolpy_reset_flags
    rw [if_neg h1, if_neg h2]

/-- C10 witness: the universally quantified clauses of
`get_esptoolpy_reset_flags_cases` evaluated at a concrete reset method. -/
theorem get_esptoolpy_reset_flags_cases_witness :
    get_esptoolpy_reset_flags "wifio" =
      ["--before", "no-reset-no-sync", "--after", "soft-reset"] :=
  get_esptoolpy_reset_flags_cases.2.2.2 "wifio" (by decide) (by decide)

end Esp8266
